import Mathlib

/-
Verification development for a single-file PostgreSQL CRUD application
(`app.py`) managing a `students` table.  The external relational store is
modelled as an explicit state (`DB`): a list of rows plus the next
auto-generated identifier.  Store failures (connection failure, generic SQL
error) are injected through a `StoreFault` parameter; the uniqueness
constraint on `email` is part of the store model itself.  Python string
primitives used by the source (`str.strip`, `int(...)`,
`datetime.strptime(s, "%Y-%m-%d")`) are embedded over ASCII character lists.
-/

namespace StudentsApp

/-! ## Python string primitives -/

/-- ASCII whitespace recognised by Python's `str.strip()` (space, tab,
newline, carriage return, vertical tab, form feed).  Unicode whitespace
and digit forms are not modelled. -/
def isSpaceA (c : Char) : Bool :=
  c.toNat = 32 || c.toNat = 9 || c.toNat = 10 || c.toNat = 13 ||
  c.toNat = 11 || c.toNat = 12

/-- Strip leading and trailing whitespace from a character list. -/
def stripList (cs : List Char) : List Char :=
  ((cs.dropWhile isSpaceA).reverse.dropWhile isSpaceA).reverse

/-- Embeds Python `str.strip()` as used on every `input(...)` in `menu`. -/
def pyStrip (s : String) : String :=
  String.mk (stripList s.data)

/-- Numeric value of a list of ASCII digits, most significant first. -/
def natOfDigits (cs : List Char) : Nat :=
  cs.foldl (fun n c => 10 * n + (c.toNat - 48)) 0

/-- Tail of Python's integer-literal digit grammar: after a leading digit,
digits may continue, with single underscores allowed only between digits
(matches the regular expression `(_?[0-9])*`). -/
def undTail : List Char → Bool
  | [] => true
  | '_' :: [] => false
  | '_' :: d :: rest => d.isDigit && undTail rest
  | c :: rest => c.isDigit && undTail rest

/-- Digit part of Python `int(str)`: nonempty, starts with a digit, single
underscores only between digits. -/
def digitsUnd : List Char → Bool
  | [] => false
  | c :: rest => c.isDigit && undTail rest

/-- Remove the underscore digit separators before computing the value. -/
def stripUnderscores (cs : List Char) : List Char :=
  cs.filter (fun c => c ≠ '_')

/-- Embeds the Python built-in `int(str)` as used in `updateStudentEmail`
and `deleteStudent` (`sid = int(student_id)`): surrounding whitespace is
ignored, an optional sign precedes decimal digits with optional single
underscores between digits; anything else raises `ValueError`, modelled as
`none`. -/
def pyInt (s : String) : Option Int :=
  match stripList s.data with
  | '+' :: rest =>
      if digitsUnd rest then some (Int.ofNat (natOfDigits (stripUnderscores rest))) else none
  | '-' :: rest =>
      if digitsUnd rest then some (-(Int.ofNat (natOfDigits (stripUnderscores rest)))) else none
  | t => if digitsUnd t then some (Int.ofNat (natOfDigits (stripUnderscores t))) else none

/-! ## Date validation (`datetime.strptime(date_str, "%Y-%m-%d")`) -/

/-- Prepend a character to the first group of a split. -/
def consHead (c : Char) : List (List Char) → List (List Char)
  | [] => [[c]]
  | g :: gs => (c :: g) :: gs

/-- Split a character list on the literal `'-'` separators. -/
def splitDash : List Char → List (List Char)
  | [] => [[]]
  | c :: rest => if c = '-' then [] :: splitDash rest else consHead c (splitDash rest)

/-- Gregorian leap-year rule used by Python's `datetime`. -/
def isLeap (y : Nat) : Bool :=
  y % 4 = 0 && (y % 100 ≠ 0 || y % 400 = 0)

/-- Days in a month, as enforced by the `datetime` constructor. -/
def daysInMonth (y m : Nat) : Nat :=
  if m = 2 then (if isLeap y then 29 else 28)
  else if m = 4 || m = 6 || m = 9 || m = 11 then 30
  else 31

/-- A field of `lo` to `hi` ASCII digits. -/
def fieldDigits (cs : List Char) (lo hi : Nat) : Bool :=
  lo ≤ cs.length && cs.length ≤ hi && cs.all Char.isDigit

/-- Embeds success of `datetime.strptime(date_str, "%Y-%m-%d")` in
`addStudent`: CPython's `_strptime` regular expressions take exactly four
digits for `%Y`, one or two digits for `%m` (values 1..12) and `%d`
(values 1..31, further bounded by the month length), separated by literal
dashes with nothing left over; the `datetime` constructor then requires
year at least 1 and the day to fit the month. -/
def validDate (s : String) : Bool :=
  match splitDash s.data with
  | [ys, ms, ds] =>
    fieldDigits ys 4 4 && fieldDigits ms 1 2 && fieldDigits ds 1 2 &&
    (let y := natOfDigits ys
     let m := natOfDigits ms
     let d := natOfDigits ds
     1 ≤ y && 1 ≤ m && m ≤ 12 && 1 ≤ d && d ≤ daysInMonth y m)
  | _ => false

/-- Follows the spec's words for C2 only, for comparison with `validDate`:
the string strictly matches the shape `YYYY-MM-DD` (four digits, dash, two
digits, dash, two digits) and denotes a real calendar date. -/
def specStrictDateAccept (s : String) : Bool :=
  match s.data with
  | [y1, y2, y3, y4, '-', m1, m2, '-', d1, d2] =>
    y1.isDigit && y2.isDigit && y3.isDigit && y4.isDigit &&
    m1.isDigit && m2.isDigit && d1.isDigit && d2.isDigit &&
    (let y := natOfDigits [y1, y2, y3, y4]
     let m := natOfDigits [m1, m2]
     let d := natOfDigits [d1, d2]
     1 ≤ y && 1 ≤ m && m ≤ 12 && 1 ≤ d && d ≤ daysInMonth y m)
  | _ => false

/-! ## Store model -/

/-- One row of the `students` table. -/
structure StudentRow where
  student_id : Int
  first_name : String
  last_name : String
  email : String
  enrollment_date : String
deriving DecidableEq, Repr

/-- The external relational store: current rows plus the next value of the
auto-generated `student_id` sequence. -/
structure DB where
  rows : List StudentRow
  nextId : Int
deriving DecidableEq, Repr

/-- Injected store behaviour for one operation: the store works, the
connection attempt fails (psycopg2 raises an `OperationalError`, a subclass
of `psycopg2.Error`, carrying diagnostic `diag`), or executing the SQL
statement fails with a generic `psycopg2.Error` carrying `diag`. -/
inductive StoreFault where
  | noFault
  | connFail (diag : String)
  | sqlError (diag : String)
deriving DecidableEq, Repr

/-- Exceptions raised inside the `try` blocks: `errors.UniqueViolation`
(a subclass of `psycopg2.Error`) or any other `psycopg2.Error`. -/
inductive PgExc where
  | uniqueViolation (diag : String)
  | pgError (diag : String)
deriving DecidableEq, Repr

/-- The message each code path prints (its observable report). -/
inductive Report where
  | invalidDate
  | invalidId
  | addedOk (id : Int)
  | duplicateEmail
  | addFailed (diag : String)
  | noStudentFound
  | emailUpdated
  | updateFailed (diag : String)
  | deletedOk
  | deleteFailed (diag : String)
  | noStudents
  | listed (rows : List StudentRow)
  | fetchFailed (diag : String)
deriving DecidableEq, Repr

/-- Observable outcome of one operation: resulting store state, printed
report, whether `connect_db()` was called, whether `cur.execute` was
reached, and whether `conn.commit()` was called. -/
structure OpOutcome where
  db : DB
  report : Report
  connAttempted : Bool
  sqlExecuted : Bool
  committed : Bool
deriving DecidableEq, Repr

/-- Result of a `try` block body: either a value or a raised `PgExc`,
together with the connection/SQL/commit flags reached so far. -/
structure TryResult where
  result : Except PgExc (DB × Report)
  connAttempted : Bool
  sqlExecuted : Bool
  committed : Bool

/-- Some row already holds this email (the store's unique constraint). -/
def emailExists (db : DB) (email : String) : Bool :=
  db.rows.any (fun r => r.email == email)

/-- Some row has this `student_id`. -/
def idExists (db : DB) (sid : Int) : Bool :=
  db.rows.any (fun r => r.student_id == sid)

/-- A row other than `sid` already holds email `e` (what makes
`UPDATE ... SET email` violate the unique constraint). -/
def otherHasEmail (db : DB) (sid : Int) (e : String) : Bool :=
  db.rows.any (fun r => r.email == e && r.student_id != sid)

/-! ## CRUD operations (`app.py`) -/

/-- Insertion sort key for `ORDER BY student_id`. -/
def insertById (r : StudentRow) : List StudentRow → List StudentRow
  | [] => [r]
  | x :: xs => if r.student_id ≤ x.student_id then r :: x :: xs else x :: insertById r xs

/-- Rows ordered by `student_id` ascending, as the SELECT returns them. -/
def sortById (l : List StudentRow) : List StudentRow :=
  l.foldr insertById []

/-- Embeds `getAllStudents()`: SELECT all rows ordered by id, print them or
a "no students" notice; any `psycopg2.Error` is caught and printed. -/
def getAllStudents (db : DB) (fault : StoreFault) : OpOutcome :=
  match fault with
  | .connFail d => ⟨db, .fetchFailed d, true, false, false⟩
  | .sqlError d => ⟨db, .fetchFailed d, true, true, false⟩
  | .noFault =>
    let rows := sortById db.rows
    if rows.isEmpty then ⟨db, .noStudents, true, true, false⟩
    else ⟨db, .listed rows, true, true, false⟩

/-- Body of the `try` block of `addStudent`: connect, INSERT RETURNING
`student_id`, commit.  The store raises `UniqueViolation` when the email is
already present. -/
def addStudentCore (db : DB) (fault : StoreFault)
    (first last email date_str : String) : TryResult :=
  match fault with
  | .connFail d => ⟨.error (.pgError d), true, false, false⟩
  | .sqlError d => ⟨.error (.pgError d), true, true, false⟩
  | .noFault =>
    if emailExists db email then
      ⟨.error (.uniqueViolation "duplicate key value violates unique constraint"),
       true, true, false⟩
    else
      let row : StudentRow := ⟨db.nextId, first, last, email, date_str⟩
      ⟨.ok (⟨db.rows ++ [row], db.nextId + 1⟩, .addedOk db.nextId), true, true, true⟩

/-- Embeds `addStudent(first, last, email, date_str)`: validate the date
first (no store contact on failure), then run the insert, translating
`UniqueViolation` to the duplicate-email message and any other
`psycopg2.Error` to the generic add-failure message. -/
def addStudent (db : DB) (fault : StoreFault)
    (first last email date_str : String) : OpOutcome :=
  if validDate date_str then
    let t := addStudentCore db fault first last email date_str
    match t.result with
    | .ok (db2, rep) => ⟨db2, rep, t.connAttempted, t.sqlExecuted, t.committed⟩
    | .error (.uniqueViolation _) => ⟨db, .duplicateEmail, t.connAttempted, t.sqlExecuted, false⟩
    | .error (.pgError d) => ⟨db, .addFailed d, t.connAttempted, t.sqlExecuted, false⟩
  else ⟨db, .invalidDate, false, false, false⟩

/-- Body of the `try` block of `updateStudentEmail`: connect, run
`UPDATE students SET email = %s WHERE student_id = %s`, then either the
zero-rowcount branch (no commit) or commit.  The store raises
`UniqueViolation` when a matched row would take an email another row
already holds. -/
def updateStudentEmailCore (db : DB) (fault : StoreFault)
    (sid : Int) (new_email : String) : TryResult :=
  match fault with
  | .connFail d => ⟨.error (.pgError d), true, false, false⟩
  | .sqlError d => ⟨.error (.pgError d), true, true, false⟩
  | .noFault =>
    if idExists db sid then
      if otherHasEmail db sid new_email then
        ⟨.error (.uniqueViolation "duplicate key value violates unique constraint"),
         true, true, false⟩
      else
        let rows2 := db.rows.map (fun r =>
          if r.student_id == sid then { r with email := new_email } else r)
        ⟨.ok (⟨rows2, db.nextId⟩, .emailUpdated), true, true, true⟩
    else
      ⟨.ok (db, .noStudentFound), true, true, false⟩

/-- Embeds `updateStudentEmail(student_id, new_email)`: parse the id with
`int(...)` first (no store contact on failure), then run the update,
translating `UniqueViolation` to the duplicate-email message and any other
`psycopg2.Error` to the generic update-failure message. -/
def updateStudentEmail (db : DB) (fault : StoreFault)
    (student_id new_email : String) : OpOutcome :=
  match pyInt student_id with
  | none => ⟨db, .invalidId, false, false, false⟩
  | some sid =>
    let t := updateStudentEmailCore db fault sid new_email
    match t.result with
    | .ok (db2, rep) => ⟨db2, rep, t.connAttempted, t.sqlExecuted, t.committed⟩
    | .error (.uniqueViolation _) => ⟨db, .duplicateEmail, t.connAttempted, t.sqlExecuted, false⟩
    | .error (.pgError d) => ⟨db, .updateFailed d, t.connAttempted, t.sqlExecuted, false⟩

/-- Body of the `try` block of `deleteStudent`: connect, run
`DELETE FROM students WHERE student_id = %s`, then either the zero-rowcount
branch (no commit) or commit. -/
def deleteStudentCore (db : DB) (fault : StoreFault) (sid : Int) : TryResult :=
  match fault with
  | .connFail d => ⟨.error (.pgError d), true, false, false⟩
  | .sqlError d => ⟨.error (.pgError d), true, true, false⟩
  | .noFault =>
    if idExists db sid then
      ⟨.ok (⟨db.rows.filter (fun r => !(r.student_id == sid)), db.nextId⟩, .deletedOk),
       true, true, true⟩
    else
      ⟨.ok (db, .noStudentFound), true, true, false⟩

/-- Embeds `deleteStudent(student_id)`: parse the id with `int(...)` first
(no store contact on failure), then run the delete; any `psycopg2.Error`
(including a `UniqueViolation`, which its single handler also catches) is
translated to the generic delete-failure message. -/
def deleteStudent (db : DB) (fault : StoreFault) (student_id : String) : OpOutcome :=
  match pyInt student_id with
  | none => ⟨db, .invalidId, false, false, false⟩
  | some sid =>
    let t := deleteStudentCore db fault sid
    match t.result with
    | .ok (db2, rep) => ⟨db2, rep, t.connAttempted, t.sqlExecuted, t.committed⟩
    | .error (.uniqueViolation d) => ⟨db, .deleteFailed d, t.connAttempted, t.sqlExecuted, false⟩
    | .error (.pgError d) => ⟨db, .deleteFailed d, t.connAttempted, t.sqlExecuted, false⟩

/-! ## Menu loop and entry point -/

/-- The menu loop's two states. -/
inductive MenuState where
  | awaitingChoice
  | exited
deriving DecidableEq, Repr

/-- An operation dispatch, with the argument strings as passed. -/
inductive MenuCall where
  | callList
  | callAdd (first last email date : String)
  | callUpdate (sid newEmail : String)
  | callDelete (sid : String)
deriving DecidableEq, Repr

/-- Result of one menu iteration: next state, dispatched operation (if
any), and whether the invalid-option notice was printed. -/
structure MenuStep where
  next : MenuState
  call : Option MenuCall
  invalidNotice : Bool
deriving DecidableEq, Repr

/-- Embeds one iteration of `menu()`: the choice and every collected field
are read with `input(...).strip()`; the stripped choice selects the branch;
field contents are never inspected by the loop itself.  `f1..f4` are the
raw operator entries the selected branch consumes (in prompt order). -/
def menuStep (rawChoice f1 f2 f3 f4 : String) : MenuStep :=
  let choice := pyStrip rawChoice
  if choice = "1" then ⟨.awaitingChoice, some .callList, false⟩
  else if choice = "2" then
    ⟨.awaitingChoice, some (.callAdd (pyStrip f1) (pyStrip f2) (pyStrip f3) (pyStrip f4)), false⟩
  else if choice = "3" then
    ⟨.awaitingChoice, some (.callUpdate (pyStrip f1) (pyStrip f2)), false⟩
  else if choice = "4" then
    ⟨.awaitingChoice, some (.callDelete (pyStrip f1)), false⟩
  else if choice = "0" then ⟨.exited, none, false⟩
  else ⟨.awaitingChoice, none, true⟩

/-- Run the operation a menu dispatch selected. -/
def runOp (c : MenuCall) (db : DB) (fault : StoreFault) : OpOutcome :=
  match c with
  | .callList => getAllStudents db fault
  | .callAdd first last email date => addStudent db fault first last email date
  | .callUpdate sid newEmail => updateStudentEmail db fault sid newEmail
  | .callDelete sid => deleteStudent db fault sid

/-- One full pass of the menu loop body: dispatch on the stripped choice,
run the selected operation against the store, return the next loop state,
the store state, and the operation's report when one ran. -/
def loopStep (db : DB) (fault : StoreFault)
    (rawChoice f1 f2 f3 f4 : String) : MenuState × DB × Option Report :=
  let ms := menuStep rawChoice f1 f2 f3 f4
  match ms.call with
  | some c =>
    let o := runOp c db fault
    (ms.next, o.db, some o.report)
  | none => (ms.next, db, none)

/-- Outcome of process start. -/
inductive StartupResult where
  | fatalConnError (diag : String)
  | enteredMenu
deriving DecidableEq, Repr

/-- Embeds the `__main__` block: one connectivity check; on
`psycopg2.Error` print the error and stop without entering `menu()`,
otherwise enter the menu loop. -/
def mainStartup (fault : StoreFault) : StartupResult :=
  match fault with
  | .connFail d => .fatalConnError d
  | _ => .enteredMenu

/-! ## Helper lemmas -/

lemma idExists_filter_ne (rows : List StudentRow) (n : Int) (sid : Int) :
    idExists ⟨rows.filter (fun r => !(r.student_id == sid)), n⟩ sid = false := by
  simp only [idExists]
  rw [Bool.eq_false_iff]
  intro h
  rcases List.any_eq_true.mp h with ⟨r, hr, hbeq⟩
  rcases List.mem_filter.mp hr with ⟨-, hne⟩
  rw [hbeq] at hne
  simp at hne

/-! ## Claims -/

/-- C1: a mutating call (`updateStudentEmail` or `deleteStudent`) whose
identifier parses as an integer but matches zero rows reports the
no-student-found message, calls no `conn.commit()`, and leaves every record
unchanged; deleting the same identifier twice succeeds the first time and
reports no-student-found the second time. -/
theorem mutate_zero_rows_not_found (db : DB) (s e : String) (sid : Int)
    (hparse : pyInt s = some sid) :
    (idExists db sid = false →
      updateStudentEmail db .noFault s e =
        ⟨db, .noStudentFound, true, true, false⟩ ∧
      deleteStudent db .noFault s =
        ⟨db, .noStudentFound, true, true, false⟩) ∧
    (idExists db sid = true →
      (deleteStudent db .noFault s).report = .deletedOk ∧
      deleteStudent (deleteStudent db .noFault s).db .noFault s =
        ⟨(deleteStudent db .noFault s).db, .noStudentFound, true, true, false⟩) := by
  constructor
  · intro hid
    constructor
    · simp [updateStudentEmail, hparse, updateStudentEmailCore, hid]
    · simp [deleteStudent, hparse, deleteStudentCore, hid]
  · intro hid
    have hdel : deleteStudent db .noFault s =
        ⟨⟨db.rows.filter (fun r => !(r.student_id == sid)), db.nextId⟩, .deletedOk,
          true, true, true⟩ := by
      simp [deleteStudent, hparse, deleteStudentCore, hid]
    refine ⟨by rw [hdel], ?_⟩
    rw [hdel]
    simp [deleteStudent, hparse, deleteStudentCore, idExists_filter_ne]

/-- C1 witness: on a one-row store, updating or deleting the missing id 9
reports no-student-found with no commit and an unchanged store, and
deleting id 1 twice succeeds then reports no-student-found. -/
theorem mutate_zero_rows_not_found_witness :
    (pyInt "9" = some 9 ∧
      (idExists ⟨[⟨1, "Ada", "Lovelace", "ada@x.com", "1843-12-10"⟩], 2⟩ (9 : Int) = false →
        updateStudentEmail ⟨[⟨1, "Ada", "Lovelace", "ada@x.com", "1843-12-10"⟩], 2⟩
            .noFault "9" "z@x.com" =
          ⟨⟨[⟨1, "Ada", "Lovelace", "ada@x.com", "1843-12-10"⟩], 2⟩,
            .noStudentFound, true, true, false⟩ ∧
        deleteStudent ⟨[⟨1, "Ada", "Lovelace", "ada@x.com", "1843-12-10"⟩], 2⟩
            .noFault "9" =
          ⟨⟨[⟨1, "Ada", "Lovelace", "ada@x.com", "1843-12-10"⟩], 2⟩,
            .noStudentFound, true, true, false⟩)) ∧
    (pyInt "1" = some 1 ∧
      (idExists ⟨[⟨1, "Ada", "Lovelace", "ada@x.com", "1843-12-10"⟩], 2⟩ (1 : Int) = true →
        (deleteStudent ⟨[⟨1, "Ada", "Lovelace", "ada@x.com", "1843-12-10"⟩], 2⟩
            .noFault "1").report = .deletedOk ∧
        deleteStudent (deleteStudent ⟨[⟨1, "Ada", "Lovelace", "ada@x.com", "1843-12-10"⟩], 2⟩
            .noFault "1").db .noFault "1" =
          ⟨(deleteStudent ⟨[⟨1, "Ada", "Lovelace", "ada@x.com", "1843-12-10"⟩], 2⟩
              .noFault "1").db, .noStudentFound, true, true, false⟩)) :=
  ⟨⟨by decide,
    (mutate_zero_rows_not_found ⟨[⟨1, "Ada", "Lovelace", "ada@x.com", "1843-12-10"⟩], 2⟩
      "9" "z@x.com" 9 (by decide)).1⟩,
   ⟨by decide,
    (mutate_zero_rows_not_found ⟨[⟨1, "Ada", "Lovelace", "ada@x.com", "1843-12-10"⟩], 2⟩
      "1" "z@x.com" 1 (by decide)).2⟩⟩

/-- C3: `addStudent` validates the enrollment date before any store
contact — on an invalid date it reports and returns with no connection, no
SQL, and an unchanged store; exactly one row is inserted when it reports
success, and no row is inserted on any other path. -/
theorem addStudent_validates_before_store (db : DB) (fault : StoreFault)
    (first last email date_str : String) :
    (validDate date_str = false →
      addStudent db fault first last email date_str =
        ⟨db, .invalidDate, false, false, false⟩) ∧
    (∀ i : Int, (addStudent db fault first last email date_str).report = .addedOk i →
      (addStudent db fault first last email date_str).db.rows.length =
        db.rows.length + 1) ∧
    ((∀ i : Int, (addStudent db fault first last email date_str).report ≠ .addedOk i) →
      (addStudent db fault first last email date_str).db = db) := by
  by_cases hv : validDate date_str
  · refine ⟨fun h => by simp [h] at hv, ?_, ?_⟩
    · intro i
      cases fault with
      | connFail d => simp [addStudent, hv, addStudentCore]
      | sqlError d => simp [addStudent, hv, addStudentCore]
      | noFault =>
        by_cases he : emailExists db email <;>
          simp [addStudent, hv, addStudentCore, he]
    · intro hno
      cases fault with
      | connFail d => simp [addStudent, hv, addStudentCore]
      | sqlError d => simp [addStudent, hv, addStudentCore]
      | noFault =>
        by_cases he : emailExists db email
        · simp [addStudent, hv, addStudentCore, he]
        · exact absurd (by simp [addStudent, hv, addStudentCore, he]) (hno db.nextId)
  · have hv2 : validDate date_str = false := by simpa using hv
    refine ⟨fun _ => by simp [addStudent, hv2], ?_, fun _ => by simp [addStudent, hv2]⟩
    intro i hi
    simp [addStudent, hv2] at hi

/-- C3 witness: with a bad date no store contact happens and the store is
unchanged; with a good date and fresh email exactly one row is added. -/
theorem addStudent_validates_before_store_witness :
    (validDate "2023-13-01" = false →
      addStudent ⟨[], 1⟩ .noFault "Ada" "Lovelace" "ada@x.com" "2023-13-01" =
        ⟨⟨[], 1⟩, .invalidDate, false, false, false⟩) ∧
    (validDate "2023-13-01" = false) ∧
    ((addStudent ⟨[], 1⟩ .noFault "Ada" "Lovelace" "ada@x.com" "2023-09-01").report =
        .addedOk 1 ∧
      (addStudent ⟨[], 1⟩ .noFault "Ada" "Lovelace" "ada@x.com" "2023-09-01").db.rows.length =
        (⟨[], 1⟩ : DB).rows.length + 1) :=
  ⟨(addStudent_validates_before_store ⟨[], 1⟩ .noFault "Ada" "Lovelace" "ada@x.com"
      "2023-13-01").1,
   by decide,
   by decide,
   (addStudent_validates_before_store ⟨[], 1⟩ .noFault "Ada" "Lovelace" "ada@x.com"
      "2023-09-01").2.1 1 (by decide)⟩

/-- C4: `updateStudentEmail` and `deleteStudent` parse the identifier with
`int(...)` before any store contact: a non-parsing input (such as "abc",
"3.5", "") is reported as invalid immediately, with no connection, no SQL,
and an unchanged store, under every store behaviour; "42" parses and the
store is contacted. -/
theorem id_parsed_before_store (db : DB) (fault : StoreFault) (s e : String) :
    (pyInt "abc" = none ∧ pyInt "3.5" = none ∧ pyInt "" = none ∧
      pyInt "42" = some 42) ∧
    (pyInt s = none →
      updateStudentEmail db fault s e = ⟨db, .invalidId, false, false, false⟩ ∧
      deleteStudent db fault s = ⟨db, .invalidId, false, false, false⟩) ∧
    ((updateStudentEmail db fault "42" e).connAttempted = true ∧
      (deleteStudent db fault "42").connAttempted = true) := by
  have h42 : pyInt "42" = some 42 := by decide
  refine ⟨⟨by decide, by decide, by decide, h42⟩,
    fun h => ⟨by simp [updateStudentEmail, h], by simp [deleteStudent, h]⟩, ?_, ?_⟩
  · cases fault with
    | connFail d => simp [updateStudentEmail, h42, updateStudentEmailCore]
    | sqlError d => simp [updateStudentEmail, h42, updateStudentEmailCore]
    | noFault =>
      by_cases hid : idExists db 42
      · by_cases ho : otherHasEmail db 42 e <;>
          simp [updateStudentEmail, h42, updateStudentEmailCore, hid, ho]
      · simp [updateStudentEmail, h42, updateStudentEmailCore, hid]
  · cases fault with
    | connFail d => simp [deleteStudent, h42, deleteStudentCore]
    | sqlError d => simp [deleteStudent, h42, deleteStudentCore]
    | noFault =>
      by_cases hid : idExists db 42 <;>
        simp [deleteStudent, h42, deleteStudentCore, hid]

/-- C4 witness: "abc" is rejected with no store contact on an empty store,
and "42" reaches the store. -/
theorem id_parsed_before_store_witness :
    pyInt "abc" = none ∧
    (updateStudentEmail ⟨[], 1⟩ .noFault "abc" "x@y.z" =
        ⟨⟨[], 1⟩, .invalidId, false, false, false⟩ ∧
      deleteStudent ⟨[], 1⟩ .noFault "abc" =
        ⟨⟨[], 1⟩, .invalidId, false, false, false⟩) ∧
    (updateStudentEmail ⟨[], 1⟩ .noFault "42" "x@y.z").connAttempted = true :=
  ⟨by decide,
   (id_parsed_before_store ⟨[], 1⟩ .noFault "abc" "x@y.z").2.1 (by decide),
   (id_parsed_before_store ⟨[], 1⟩ .noFault "abc" "x@y.z").2.2.1⟩

/-- C5: a store uniqueness violation during `addStudent` or
`updateStudentEmail` is reported with the specific duplicate-email message,
never the generic store-failure message; any other store error is reported
with the store's diagnostic text. -/
theorem duplicate_email_specific (db : DB)
    (first last email date_str s e d : String) (sid : Int) :
    (validDate date_str = true → emailExists db email = true →
      (addStudent db .noFault first last email date_str).report = .duplicateEmail ∧
      ∀ d2, (addStudent db .noFault first last email date_str).report ≠ .addFailed d2) ∧
    (validDate date_str = true →
      (addStudent db (.sqlError d) first last email date_str).report = .addFailed d) ∧
    (pyInt s = some sid → idExists db sid = true → otherHasEmail db sid e = true →
      (updateStudentEmail db .noFault s e).report = .duplicateEmail ∧
      ∀ d2, (updateStudentEmail db .noFault s e).report ≠ .updateFailed d2) ∧
    (pyInt s = some sid →
      (updateStudentEmail db (.sqlError d) s e).report = .updateFailed d) := by
  refine ⟨fun hv he => ?_, fun hv => ?_, fun hp hid ho => ?_, fun hp => ?_⟩
  · constructor <;> simp [addStudent, hv, addStudentCore, he]
  · simp [addStudent, hv, addStudentCore]
  · constructor <;> simp [updateStudentEmail, hp, updateStudentEmailCore, hid, ho]
  · simp [updateStudentEmail, hp, updateStudentEmailCore]

/-- C5 witness: inserting a second "ada@x.com" reports the duplicate-email
message; a generic SQL failure reports its diagnostic; updating row 2's
email to row 1's reports the duplicate-email message. -/
theorem duplicate_email_specific_witness :
    (validDate "2023-09-01" = true ∧
      emailExists ⟨[⟨1, "Ada", "Lovelace", "ada@x.com", "1843-12-10"⟩,
        ⟨2, "Bob", "Hope", "bob@x.com", "2001-01-01"⟩], 3⟩ "ada@x.com" = true ∧
      pyInt "2" = some 2 ∧
      idExists ⟨[⟨1, "Ada", "Lovelace", "ada@x.com", "1843-12-10"⟩,
        ⟨2, "Bob", "Hope", "bob@x.com", "2001-01-01"⟩], 3⟩ (2 : Int) = true ∧
      otherHasEmail ⟨[⟨1, "Ada", "Lovelace", "ada@x.com", "1843-12-10"⟩,
        ⟨2, "Bob", "Hope", "bob@x.com", "2001-01-01"⟩], 3⟩ (2 : Int) "ada@x.com" = true) ∧
    ((addStudent ⟨[⟨1, "Ada", "Lovelace", "ada@x.com", "1843-12-10"⟩,
        ⟨2, "Bob", "Hope", "bob@x.com", "2001-01-01"⟩], 3⟩
        .noFault "Eve" "Moneypenny" "ada@x.com" "2023-09-01").report = .duplicateEmail ∧
      ∀ d2, (addStudent ⟨[⟨1, "Ada", "Lovelace", "ada@x.com", "1843-12-10"⟩,
        ⟨2, "Bob", "Hope", "bob@x.com", "2001-01-01"⟩], 3⟩
        .noFault "Eve" "Moneypenny" "ada@x.com" "2023-09-01").report ≠ .addFailed d2) ∧
    (addStudent ⟨[⟨1, "Ada", "Lovelace", "ada@x.com", "1843-12-10"⟩,
        ⟨2, "Bob", "Hope", "bob@x.com", "2001-01-01"⟩], 3⟩
        (.sqlError "relation does not exist") "Eve" "Moneypenny" "eve@x.com"
        "2023-09-01").report = .addFailed "relation does not exist" ∧
    ((updateStudentEmail ⟨[⟨1, "Ada", "Lovelace", "ada@x.com", "1843-12-10"⟩,
        ⟨2, "Bob", "Hope", "bob@x.com", "2001-01-01"⟩], 3⟩
        .noFault "2" "ada@x.com").report = .duplicateEmail) :=
  ⟨⟨by decide, by decide, by decide, by decide, by decide⟩,
   (duplicate_email_specific ⟨[⟨1, "Ada", "Lovelace", "ada@x.com", "1843-12-10"⟩,
      ⟨2, "Bob", "Hope", "bob@x.com", "2001-01-01"⟩], 3⟩
      "Eve" "Moneypenny" "ada@x.com" "2023-09-01" "2" "ada@x.com"
      "relation does not exist" 2).1 (by decide) (by decide),
   (duplicate_email_specific ⟨[⟨1, "Ada", "Lovelace", "ada@x.com", "1843-12-10"⟩,
      ⟨2, "Bob", "Hope", "bob@x.com", "2001-01-01"⟩], 3⟩
      "Eve" "Moneypenny" "eve@x.com" "2023-09-01" "2" "ada@x.com"
      "relation does not exist" 2).2.1 (by decide),
   ((duplicate_email_specific ⟨[⟨1, "Ada", "Lovelace", "ada@x.com", "1843-12-10"⟩,
      ⟨2, "Bob", "Hope", "bob@x.com", "2001-01-01"⟩], 3⟩
      "Eve" "Moneypenny" "ada@x.com" "2023-09-01" "2" "ada@x.com"
      "relation does not exist" 2).2.2.1 (by decide) (by decide) (by decide)).1⟩

/-- C6: the menu loop is a two-state machine: a stripped choice "1".."4"
dispatches the matching operation and returns to the awaiting state for
every possible field input (the loop inspects no field), "0" moves to the
terminal exited state, and anything else prints the invalid-option notice
and returns to the awaiting state. -/
theorem menu_two_state_machine (rc f1 f2 f3 f4 : String) :
    (pyStrip rc = "1" →
      menuStep rc f1 f2 f3 f4 = ⟨.awaitingChoice, some .callList, false⟩) ∧
    (pyStrip rc = "2" → menuStep rc f1 f2 f3 f4 =
      ⟨.awaitingChoice,
        some (.callAdd (pyStrip f1) (pyStrip f2) (pyStrip f3) (pyStrip f4)), false⟩) ∧
    (pyStrip rc = "3" → menuStep rc f1 f2 f3 f4 =
      ⟨.awaitingChoice, some (.callUpdate (pyStrip f1) (pyStrip f2)), false⟩) ∧
    (pyStrip rc = "4" → menuStep rc f1 f2 f3 f4 =
      ⟨.awaitingChoice, some (.callDelete (pyStrip f1)), false⟩) ∧
    (pyStrip rc = "0" → menuStep rc f1 f2 f3 f4 = ⟨.exited, none, false⟩) ∧
    (pyStrip rc ≠ "0" ∧ pyStrip rc ≠ "1" ∧ pyStrip rc ≠ "2" ∧ pyStrip rc ≠ "3" ∧
        pyStrip rc ≠ "4" →
      menuStep rc f1 f2 f3 f4 = ⟨.awaitingChoice, none, true⟩) := by
  refine ⟨fun h => ?_, fun h => ?_, fun h => ?_, fun h => ?_, fun h => ?_, fun h => ?_⟩
  · simp [menuStep, h]
  · simp [menuStep, h]
  · simp [menuStep, h]
  · simp [menuStep, h]
  · simp [menuStep, h]
  · obtain ⟨h0, h1, h2, h3, h4⟩ := h
    simp [menuStep, h0, h1, h2, h3, h4]

/-- C6 witness: choice "2" dispatches the create operation with the
stripped fields and returns to the awaiting state; choice "0" exits. -/
theorem menu_two_state_machine_witness :
    pyStrip "2" = "2" ∧
    menuStep "2" " Ada " "Lovelace" " ada@x.com" "2023-09-01 " =
      ⟨.awaitingChoice,
        some (.callAdd (pyStrip " Ada ") (pyStrip "Lovelace") (pyStrip " ada@x.com")
          (pyStrip "2023-09-01 ")), false⟩ ∧
    pyStrip "0" = "0" ∧
    menuStep "0" "" "" "" "" = ⟨.exited, none, false⟩ :=
  ⟨by decide,
   (menu_two_state_machine "2" " Ada " "Lovelace" " ada@x.com" "2023-09-01 ").2.1
     (by decide),
   by decide,
   (menu_two_state_machine "0" "" "" "" "").2.2.2.2.1 (by decide)⟩

/-- C7: every store or validation error inside an operation is converted to
a report and the loop returns to the awaiting state (a non-exit choice
never leaves the loop, whatever the store does); per-operation store
failures leave the records unchanged; only the startup connectivity check
is fatal — it reports the connection error and never enters the menu. -/
theorem errors_confined_to_operation (db : DB) (fault : StoreFault)
    (rc f1 f2 f3 f4 d : String) (c : MenuCall) :
    (pyStrip rc ≠ "0" → (loopStep db fault rc f1 f2 f3 f4).1 = .awaitingChoice) ∧
    ((runOp c db (.connFail d)).db = db ∧ (runOp c db (.sqlError d)).db = db) ∧
    mainStartup (.connFail d) = .fatalConnError d ∧
    mainStartup (.sqlError d) = .enteredMenu ∧
    mainStartup .noFault = .enteredMenu := by
  refine ⟨fun h => ?_, ⟨?_, ?_⟩, rfl, rfl, rfl⟩
  · have hnext : (loopStep db fault rc f1 f2 f3 f4).1 =
        (menuStep rc f1 f2 f3 f4).next := by
      cases hc : (menuStep rc f1 f2 f3 f4).call <;> simp [loopStep, hc]
    rw [hnext]
    simp only [menuStep]
    split_ifs <;> simp_all
  · cases c with
    | callList => simp [runOp, getAllStudents]
    | callAdd first last email date =>
      by_cases hv : validDate date <;> simp [runOp, addStudent, hv, addStudentCore]
    | callUpdate sid newEmail =>
      cases hp : pyInt sid <;> simp [runOp, updateStudentEmail, hp, updateStudentEmailCore]
    | callDelete sid =>
      cases hp : pyInt sid <;> simp [runOp, deleteStudent, hp, deleteStudentCore]
  · cases c with
    | callList => simp [runOp, getAllStudents]
    | callAdd first last email date =>
      by_cases hv : validDate date <;> simp [runOp, addStudent, hv, addStudentCore]
    | callUpdate sid newEmail =>
      cases hp : pyInt sid <;> simp [runOp, updateStudentEmail, hp, updateStudentEmailCore]
    | callDelete sid =>
      cases hp : pyInt sid <;> simp [runOp, deleteStudent, hp, deleteStudentCore]

/-- C7 witness: with a failing store connection, a delete dispatch still
returns the loop to the awaiting state with records intact, and startup
with the same failure is fatal without entering the menu. -/
theorem errors_confined_to_operation_witness :
    pyStrip "4" ≠ "0" ∧
    (loopStep ⟨[], 1⟩ (.connFail "could not connect to server") "4" "7" "" "" "").1 =
      .awaitingChoice ∧
    (runOp (.callDelete "7") ⟨[], 1⟩ (.connFail "could not connect to server")).db =
      ⟨[], 1⟩ ∧
    mainStartup (.connFail "could not connect to server") =
      .fatalConnError "could not connect to server" :=
  ⟨by decide,
   (errors_confined_to_operation ⟨[], 1⟩ (.connFail "could not connect to server")
     "4" "7" "" "" "" "could not connect to server" (.callDelete "7")).1 (by decide),
   (errors_confined_to_operation ⟨[], 1⟩ (.connFail "could not connect to server")
     "4" "7" "" "" "" "could not connect to server" (.callDelete "7")).2.1.1,
   (errors_confined_to_operation ⟨[], 1⟩ (.connFail "could not connect to server")
     "4" "7" "" "" "" "could not connect to server" (.callDelete "7")).2.2.1⟩

/-- A character list with no leading and no trailing whitespace. -/
def noLeadTrailWS (cs : List Char) : Bool :=
  (match cs.head? with
   | some c => !isSpaceA c
   | none => true) &&
  (match cs.getLast? with
   | some c => !isSpaceA c
   | none => true)

lemma dropWhile_head?_not (p : Char → Bool) :
    ∀ (l : List Char) (c : Char), (l.dropWhile p).head? = some c → p c = false := by
  intro l
  induction l with
  | nil => intro c h; simp at h
  | cons a t ih =>
    intro c h
    rw [List.dropWhile_cons] at h
    by_cases hp : p a
    · rw [if_pos hp] at h
      exact ih c h
    · rw [if_neg hp] at h
      simp only [List.head?_cons, Option.some.injEq] at h
      rw [← h]
      simpa using hp

lemma dropWhile_getLast?_of_ne_nil (p : Char → Bool) :
    ∀ l : List Char, l.dropWhile p ≠ [] → (l.dropWhile p).getLast? = l.getLast? := by
  intro l
  induction l with
  | nil => intro h; simp at h
  | cons a t ih =>
    intro h
    rw [List.dropWhile_cons] at h ⊢
    by_cases hp : p a
    · rw [if_pos hp] at h ⊢
      rw [ih h]
      have ht : t ≠ [] := by
        intro he
        rw [he] at h
        simp at h
      cases t with
      | nil => exact absurd rfl ht
      | cons b u => simp [List.getLast?_cons_cons]
    · rw [if_neg hp]

lemma stripList_noWS (cs : List Char) : noLeadTrailWS (stripList cs) = true := by
  unfold noLeadTrailWS stripList
  rw [Bool.and_eq_true]
  constructor
  · rw [List.head?_reverse]
    by_cases hnil : ((cs.dropWhile isSpaceA).reverse).dropWhile isSpaceA = []
    · simp [hnil]
    · rw [dropWhile_getLast?_of_ne_nil _ _ hnil, List.getLast?_reverse]
      cases hh : (cs.dropWhile isSpaceA).head? with
      | none =>
        exact absurd (by simp [List.head?_eq_none_iff.mp hh]) hnil
      | some c =>
        have := dropWhile_head?_not isSpaceA cs c hh
        simp [this]
  · rw [List.getLast?_reverse]
    cases hh : (((cs.dropWhile isSpaceA).reverse).dropWhile isSpaceA).head? with
    | none => simp
    | some c =>
      have := dropWhile_head?_not isSpaceA (cs.dropWhile isSpaceA).reverse c hh
      simp [this]

lemma pyStrip_noWS (s : String) : noLeadTrailWS (pyStrip s).data = true :=
  stripList_noWS s.data

/-- Every argument string of a dispatched operation has no leading or
trailing whitespace. -/
def callFieldsStripped : MenuCall → Bool
  | .callList => true
  | .callAdd a b c d =>
      noLeadTrailWS a.data && noLeadTrailWS b.data &&
      noLeadTrailWS c.data && noLeadTrailWS d.data
  | .callUpdate a b => noLeadTrailWS a.data && noLeadTrailWS b.data
  | .callDelete a => noLeadTrailWS a.data

/-- C9: every operator entry — the menu choice and every collected field —
is stripped of surrounding whitespace before dispatch: stripping always
yields a string with no edge whitespace, the choice " 0 " exits the loop,
every dispatched call carries only stripped field strings, and an email
entered with surrounding spaces is stored without them. -/
theorem operator_inputs_stripped :
    (∀ s : String, noLeadTrailWS (pyStrip s).data = true) ∧
    (∀ f1 f2 f3 f4 : String, (menuStep " 0 " f1 f2 f3 f4).next = .exited) ∧
    (∀ (rc f1 f2 f3 f4 : String) (c : MenuCall),
      (menuStep rc f1 f2 f3 f4).call = some c → callFieldsStripped c = true) ∧
    (∀ (db : DB) (rawFirst rawLast rawEmail rawDate : String),
      validDate (pyStrip rawDate) = true →
      emailExists db (pyStrip rawEmail) = false →
      ∃ c, (menuStep "2" rawFirst rawLast rawEmail rawDate).call = some c ∧
        (runOp c db .noFault).db.rows.map (fun r => r.email) =
          db.rows.map (fun r => r.email) ++ [pyStrip rawEmail]) := by
  refine ⟨pyStrip_noWS, ?_, ?_, ?_⟩
  · intro f1 f2 f3 f4
    have h : pyStrip " 0 " = "0" := by decide
    simp [menuStep, h]
  · intro rc f1 f2 f3 f4 c h
    simp only [menuStep] at h
    split_ifs at h <;>
      simp only [Option.some.injEq] at h <;>
      first
        | exact absurd h (by simp)
        | (rw [← h]; simp [callFieldsStripped, pyStrip_noWS])
  · intro db rawFirst rawLast rawEmail rawDate hv he
    have h2 : pyStrip "2" = "2" := by decide
    refine ⟨.callAdd (pyStrip rawFirst) (pyStrip rawLast) (pyStrip rawEmail)
      (pyStrip rawDate), by simp [menuStep, h2], ?_⟩
    simp [runOp, addStudent, hv, addStudentCore, he]

/-- C9 witness: " 0 " exits; a create dispatched with an email entered as
" ada@x.com " stores the email "ada@x.com" with the spaces removed. -/
theorem operator_inputs_stripped_witness :
    (menuStep " 0 " "" "" "" "").next = .exited ∧
    (validDate (pyStrip " 2023-09-01 ") = true ∧
      emailExists ⟨[], 1⟩ (pyStrip " ada@x.com ") = false) ∧
    (∃ c, (menuStep "2" " Ada " " Lovelace " " ada@x.com " " 2023-09-01 ").call = some c ∧
      (runOp c ⟨[], 1⟩ .noFault).db.rows.map (fun r => r.email) =
        (⟨[], 1⟩ : DB).rows.map (fun r => r.email) ++ [pyStrip " ada@x.com "]) :=
  ⟨operator_inputs_stripped.2.1 "" "" "" "",
   ⟨by decide, by decide⟩,
   operator_inputs_stripped.2.2.2 ⟨[], 1⟩ " Ada " " Lovelace " " ada@x.com "
     " 2023-09-01 " (by decide) (by decide)⟩

/-- C10: identifier parsing accepts strictly more than unsigned digit
strings: "-5", "+42" and "1_000" all parse as integers, and the mutating
operations send them to the store (connection opened, SQL executed) rather
than rejecting them as invalid. -/
theorem id_parse_accepts_signs_and_underscores (db : DB) (e : String) :
    (pyInt "-5" = some (-5) ∧ pyInt "+42" = some 42 ∧ pyInt "1_000" = some 1000) ∧
    ((updateStudentEmail db .noFault "-5" e).connAttempted = true ∧
      (updateStudentEmail db .noFault "-5" e).sqlExecuted = true ∧
      (updateStudentEmail db .noFault "-5" e).report ≠ .invalidId) ∧
    ((deleteStudent db .noFault "1_000").connAttempted = true ∧
      (deleteStudent db .noFault "1_000").sqlExecuted = true ∧
      (deleteStudent db .noFault "1_000").report ≠ .invalidId) ∧
    ((deleteStudent db .noFault "+42").connAttempted = true ∧
      (deleteStudent db .noFault "+42").report ≠ .invalidId) := by
  have h5 : pyInt "-5" = some (-5) := by decide
  have h42 : pyInt "+42" = some 42 := by decide
  have h1000 : pyInt "1_000" = some 1000 := by decide
  refine ⟨⟨h5, h42, h1000⟩, ?_, ?_, ?_⟩
  · by_cases hid : idExists db (-5)
    · by_cases ho : otherHasEmail db (-5) e <;>
        simp [updateStudentEmail, h5, updateStudentEmailCore, hid, ho]
    · simp [updateStudentEmail, h5, updateStudentEmailCore, hid]
  · by_cases hid : idExists db 1000 <;>
      simp [deleteStudent, h1000, deleteStudentCore, hid]
  · by_cases hid : idExists db 42 <;>
      simp [deleteStudent, h42, deleteStudentCore, hid]

/-- C8: when `updateStudentEmail` reports success, only the email of the
rows whose `student_id` equals the parsed identifier changes: the row count
is unchanged, every row keeps its position, identifier, names and
enrollment date, non-matching rows keep their email, and matching rows get
exactly the new email. -/
theorem updateEmail_frame (db : DB) (fault : StoreFault) (s e : String) :
    (updateStudentEmail db fault s e).report = .emailUpdated →
    ∃ sid : Int, pyInt s = some sid ∧
      (updateStudentEmail db fault s e).db.rows.length = db.rows.length ∧
      ∀ i : Nat, i < db.rows.length →
        ∃ r r2 : StudentRow, db.rows[i]? = some r ∧
          (updateStudentEmail db fault s e).db.rows[i]? = some r2 ∧
          r2.student_id = r.student_id ∧ r2.first_name = r.first_name ∧
          r2.last_name = r.last_name ∧ r2.enrollment_date = r.enrollment_date ∧
          (r.student_id ≠ sid → r2.email = r.email) ∧
          (r.student_id = sid → r2.email = e) := by
  intro hrep
  cases hp : pyInt s with
  | none => simp [updateStudentEmail, hp] at hrep
  | some sid =>
    refine ⟨sid, rfl, ?_⟩
    cases fault with
    | connFail d => simp [updateStudentEmail, hp, updateStudentEmailCore] at hrep
    | sqlError d => simp [updateStudentEmail, hp, updateStudentEmailCore] at hrep
    | noFault =>
      by_cases hid : idExists db sid
      · by_cases ho : otherHasEmail db sid e
        · simp [updateStudentEmail, hp, updateStudentEmailCore, hid, ho] at hrep
        · have hdb : (updateStudentEmail db .noFault s e).db =
              ⟨db.rows.map (fun r =>
                if r.student_id == sid then { r with email := e } else r), db.nextId⟩ := by
            simp [updateStudentEmail, hp, updateStudentEmailCore, hid, ho]
          rw [hdb]
          refine ⟨by simp, ?_⟩
          intro i hi
          refine ⟨db.rows[i],
            if db.rows[i].student_id == sid then { db.rows[i] with email := e }
              else db.rows[i],
            List.getElem?_eq_getElem hi, ?_, ?_⟩
          · simp only [List.getElem?_map, List.getElem?_eq_getElem hi, Option.map_some']
          · by_cases hs : db.rows[i].student_id = sid
            · simp [hs]
            · simp [hs]
      · simp [updateStudentEmail, hp, updateStudentEmailCore, hid] at hrep

/-- C8 witness: successfully updating row 1's email in a two-row store
leaves row 2 and row 1's other fields intact and changes row 1's email. -/
theorem updateEmail_frame_witness :
    (updateStudentEmail ⟨[⟨1, "Ada", "Lovelace", "ada@x.com", "1843-12-10"⟩,
        ⟨2, "Bob", "Hope", "bob@x.com", "2001-01-01"⟩], 3⟩
      .noFault "1" "ada2@x.com").report = .emailUpdated ∧
    (∃ sid : Int, pyInt "1" = some sid ∧
      (updateStudentEmail ⟨[⟨1, "Ada", "Lovelace", "ada@x.com", "1843-12-10"⟩,
          ⟨2, "Bob", "Hope", "bob@x.com", "2001-01-01"⟩], 3⟩
        .noFault "1" "ada2@x.com").db.rows.length =
        (⟨[⟨1, "Ada", "Lovelace", "ada@x.com", "1843-12-10"⟩,
          ⟨2, "Bob", "Hope", "bob@x.com", "2001-01-01"⟩], 3⟩ : DB).rows.length ∧
      ∀ i : Nat,
        i < (⟨[⟨1, "Ada", "Lovelace", "ada@x.com", "1843-12-10"⟩,
          ⟨2, "Bob", "Hope", "bob@x.com", "2001-01-01"⟩], 3⟩ : DB).rows.length →
        ∃ r r2 : StudentRow,
          (⟨[⟨1, "Ada", "Lovelace", "ada@x.com", "1843-12-10"⟩,
            ⟨2, "Bob", "Hope", "bob@x.com", "2001-01-01"⟩], 3⟩ : DB).rows[i]? = some r ∧
          (updateStudentEmail ⟨[⟨1, "Ada", "Lovelace", "ada@x.com", "1843-12-10"⟩,
            ⟨2, "Bob", "Hope", "bob@x.com", "2001-01-01"⟩], 3⟩
            .noFault "1" "ada2@x.com").db.rows[i]? = some r2 ∧
          r2.student_id = r.student_id ∧ r2.first_name = r.first_name ∧
          r2.last_name = r.last_name ∧ r2.enrollment_date = r.enrollment_date ∧
          (r.student_id ≠ sid → r2.email = r.email) ∧
          (r.student_id = sid → r2.email = "ada2@x.com")) :=
  ⟨by decide,
   updateEmail_frame ⟨[⟨1, "Ada", "Lovelace", "ada@x.com", "1843-12-10"⟩,
      ⟨2, "Bob", "Hope", "bob@x.com", "2001-01-01"⟩], 3⟩
     .noFault "1" "ada2@x.com" (by decide)⟩

lemma splitDash_cons_eq (c : Char) (rest : List Char) :
    splitDash (c :: rest) =
      if c = '-' then [] :: splitDash rest else consHead c (splitDash rest) := rfl

lemma splitDash_ne_nil : ∀ cs : List Char, splitDash cs ≠ [] := by
  intro cs
  cases cs with
  | nil => simp [splitDash]
  | cons c rest =>
    rw [splitDash_cons_eq]
    split
    · simp
    · cases h : splitDash rest <;> simp [consHead]

lemma splitDash_single : ∀ cs a : List Char,
    splitDash cs = [a] ↔ (cs = a ∧ '-' ∉ a) := by
  intro cs
  induction cs with
  | nil =>
    intro a
    constructor
    · intro h
      simp only [splitDash, List.cons.injEq, and_true] at h
      exact ⟨h, by rw [← h]; simp⟩
    · rintro ⟨h1, -⟩
      rw [← h1]
      rfl
  | cons c rest ih =>
    intro a
    rw [splitDash_cons_eq]
    by_cases hc : c = '-'
    · rw [if_pos hc]
      constructor
      · intro h
        simp only [List.cons.injEq] at h
        exact absurd h.2 (splitDash_ne_nil rest)
      · rintro ⟨h1, h2⟩
        exfalso
        apply h2
        rw [← h1, hc]
        exact List.mem_cons_self _ _
    · rw [if_neg hc]
      constructor
      · intro h
        cases hs : splitDash rest with
        | nil => exact absurd hs (splitDash_ne_nil rest)
        | cons g gs =>
          rw [hs] at h
          simp only [consHead, List.cons.injEq] at h
          obtain ⟨h1, h2⟩ := h
          obtain ⟨hr, hg⟩ := (ih g).mp (by rw [hs, h2])
          constructor
          · rw [← h1, hr]
          · rw [← h1]
            intro hm
            rcases List.mem_cons.mp hm with hm | hm
            · exact hc hm.symm
            · exact hg hm
      · rintro ⟨h1, h2⟩
        have h3 : '-' ∉ rest := by
          intro hh
          exact h2 (h1 ▸ List.mem_cons_of_mem _ hh)
        rw [(ih rest).mpr ⟨rfl, h3⟩, ← h1]
        simp [consHead]

lemma splitDash_pair : ∀ cs b c : List Char,
    splitDash cs = [b, c] ↔ ('-' ∉ b ∧ '-' ∉ c ∧ cs = b ++ '-' :: c) := by
  intro cs
  induction cs with
  | nil =>
    intro b c
    constructor
    · intro h
      simp [splitDash] at h
    · rintro ⟨-, -, h⟩
      cases b <;> simp at h
  | cons x rest ih =>
    intro b c
    rw [splitDash_cons_eq]
    by_cases hx : x = '-'
    · rw [if_pos hx]
      constructor
      · intro h
        simp only [List.cons.injEq] at h
        obtain ⟨h1, h2⟩ := h
        obtain ⟨hr, hc⟩ := (splitDash_single rest c).mp h2
        refine ⟨by simp [← h1], hc, ?_⟩
        rw [← h1, hx, hr]
        simp
      · rintro ⟨hb, hc, heq⟩
        cases b with
        | nil =>
          simp only [List.nil_append] at heq
          rw [hx] at heq
          simp only [List.cons.injEq, true_and] at heq
          rw [(splitDash_single rest c).mpr ⟨heq, hc⟩]
        | cons y ys =>
          exfalso
          apply hb
          simp only [List.cons_append, List.cons.injEq] at heq
          rw [← heq.1, ← hx]
          exact List.mem_cons_self _ _
    · rw [if_neg hx]
      constructor
      · intro h
        cases hs : splitDash rest with
        | nil => exact absurd hs (splitDash_ne_nil rest)
        | cons g gs =>
          rw [hs] at h
          simp only [consHead, List.cons.injEq] at h
          obtain ⟨h1, h2⟩ := h
          obtain ⟨hg, hc, heq⟩ := (ih g c).mp (by rw [hs, h2])
          refine ⟨?_, hc, ?_⟩
          · rw [← h1]
            intro hm
            rcases List.mem_cons.mp hm with hm | hm
            · exact hx hm.symm
            · exact hg hm
          · rw [← h1, heq]
            simp
      · rintro ⟨hb, hc, heq⟩
        cases b with
        | nil =>
          simp only [List.nil_append, List.cons.injEq] at heq
          exact absurd heq.1 hx
        | cons y ys =>
          simp only [List.cons_append, List.cons.injEq] at heq
          obtain ⟨h1, h2⟩ := heq
          have hys : '-' ∉ ys := fun hh => hb (List.mem_cons_of_mem _ hh)
          rw [(ih ys c).mpr ⟨hys, hc, h2⟩]
          simp [consHead, h1]

lemma splitDash_triple : ∀ cs a b c : List Char,
    splitDash cs = [a, b, c] ↔
      ('-' ∉ a ∧ '-' ∉ b ∧ '-' ∉ c ∧ cs = a ++ '-' :: (b ++ '-' :: c)) := by
  intro cs
  induction cs with
  | nil =>
    intro a b c
    constructor
    · intro h
      simp [splitDash] at h
    · rintro ⟨-, -, -, h⟩
      cases a <;> simp at h
  | cons x rest ih =>
    intro a b c
    rw [splitDash_cons_eq]
    by_cases hx : x = '-'
    · rw [if_pos hx]
      constructor
      · intro h
        simp only [List.cons.injEq] at h
        obtain ⟨h1, h2⟩ := h
        obtain ⟨hb, hc, heq⟩ := (splitDash_pair rest b c).mp h2
        refine ⟨by simp [← h1], hb, hc, ?_⟩
        rw [← h1, hx, heq]
        simp
      · rintro ⟨ha, hb, hc, heq⟩
        cases a with
        | nil =>
          simp only [List.nil_append] at heq
          rw [hx] at heq
          simp only [List.cons.injEq, true_and] at heq
          rw [(splitDash_pair rest b c).mpr ⟨hb, hc, heq⟩]
        | cons y ys =>
          exfalso
          apply ha
          simp only [List.cons_append, List.cons.injEq] at heq
          rw [← heq.1, ← hx]
          exact List.mem_cons_self _ _
    · rw [if_neg hx]
      constructor
      · intro h
        cases hs : splitDash rest with
        | nil => exact absurd hs (splitDash_ne_nil rest)
        | cons g gs =>
          rw [hs] at h
          simp only [consHead, List.cons.injEq] at h
          obtain ⟨h1, h2⟩ := h
          obtain ⟨hg, hb, hc, heq⟩ := (ih g b c).mp (by rw [hs, h2])
          refine ⟨?_, hb, hc, ?_⟩
          · rw [← h1]
            intro hm
            rcases List.mem_cons.mp hm with hm | hm
            · exact hx hm.symm
            · exact hg hm
          · rw [← h1, heq]
            simp
      · rintro ⟨ha, hb, hc, heq⟩
        cases a with
        | nil =>
          simp only [List.nil_append, List.cons.injEq] at heq
          exact absurd heq.1 hx
        | cons y ys =>
          simp only [List.cons_append, List.cons.injEq] at heq
          obtain ⟨h1, h2⟩ := heq
          have hys : '-' ∉ ys := fun hh => ha (List.mem_cons_of_mem _ hh)
          rw [(ih ys b c).mpr ⟨hys, hb, hc, h2⟩]
          simp [consHead, h1]

lemma dash_not_mem_of_digits (l : List Char) (h : l.all Char.isDigit = true) :
    '-' ∉ l := by
  intro hm
  have h2 := List.all_eq_true.mp h _ hm
  exact absurd h2 (by decide)

/-- C2 counterexample: the date validation accepts "2023-9-1", a string
that does not strictly match the shape `YYYY-MM-DD`, so "accepts if and
only if the string strictly matches `YYYY-MM-DD` and denotes a real
calendar date" is false on the code. -/
theorem date_shape_counterexample :
    validDate "2023-9-1" = true ∧ specStrictDateAccept "2023-9-1" = false := by
  decide

/-- C2 (amended): the date validation accepts a string if and only if it is
year-month-day with a four-digit year, a one-or-two-digit month and day
(the leading zero may be omitted), dashes as separators, nothing left over,
and the values denote a real calendar date with year at least 1; it rejects
"2023-13-01", "09/01/2023" and "", and accepts "2023-09-01". -/
theorem date_validation_amended :
    (∀ s : String, validDate s = true ↔
      ∃ ys ms ds : List Char,
        s.data = ys ++ '-' :: (ms ++ '-' :: ds) ∧
        ys.length = 4 ∧ ys.all Char.isDigit = true ∧
        1 ≤ ms.length ∧ ms.length ≤ 2 ∧ ms.all Char.isDigit = true ∧
        1 ≤ ds.length ∧ ds.length ≤ 2 ∧ ds.all Char.isDigit = true ∧
        1 ≤ natOfDigits ys ∧ 1 ≤ natOfDigits ms ∧ natOfDigits ms ≤ 12 ∧
        1 ≤ natOfDigits ds ∧
        natOfDigits ds ≤ daysInMonth (natOfDigits ys) (natOfDigits ms)) ∧
    validDate "2023-13-01" = false ∧ validDate "09/01/2023" = false ∧
    validDate "" = false ∧ validDate "2023-09-01" = true := by
  refine ⟨?_, by decide, by decide, by decide, by decide⟩
  intro s
  constructor
  · intro h
    unfold validDate at h
    split at h
    case h_1 ys ms ds heq =>
      simp only [fieldDigits, Bool.and_eq_true, decide_eq_true_eq] at h
      obtain ⟨⟨⟨⟨⟨hy4a, hy4b⟩, hyd⟩, ⟨⟨hm1, hm2⟩, hmd⟩⟩, ⟨⟨hd1, hd2⟩, hdd⟩⟩,
        ⟨⟨⟨⟨hvy, hvm1⟩, hvm2⟩, hvd1⟩, hvd2⟩⟩ := h
      refine ⟨ys, ms, ds,
        ((splitDash_triple s.data ys ms ds).mp heq).2.2.2,
        le_antisymm hy4b hy4a, hyd, hm1, hm2, hmd, hd1, hd2, hdd,
        hvy, hvm1, hvm2, hvd1, hvd2⟩
    case h_2 => simp at h
  · rintro ⟨ys, ms, ds, hdec, hy4, hyd, hm1, hm2, hmd, hd1, hd2, hdd,
      hvy, hvm1, hvm2, hvd1, hvd2⟩
    have hs : splitDash s.data = [ys, ms, ds] :=
      (splitDash_triple s.data ys ms ds).mpr
        ⟨dash_not_mem_of_digits ys hyd, dash_not_mem_of_digits ms hmd,
         dash_not_mem_of_digits ds hdd, hdec⟩
    unfold validDate
    rw [hs]
    simp [fieldDigits, hy4, hyd, hm1, hm2, hmd, hd1, hd2, hdd,
      hvy, hvm1, hvm2, hvd1, hvd2]

/-- C2 witness: the amended acceptance condition instantiated at the
accepted string "2023-09-01". -/
theorem date_validation_amended_witness :
    validDate "2023-09-01" = true ↔
      ∃ ys ms ds : List Char,
        ("2023-09-01" : String).data = ys ++ '-' :: (ms ++ '-' :: ds) ∧
        ys.length = 4 ∧ ys.all Char.isDigit = true ∧
        1 ≤ ms.length ∧ ms.length ≤ 2 ∧ ms.all Char.isDigit = true ∧
        1 ≤ ds.length ∧ ds.length ≤ 2 ∧ ds.all Char.isDigit = true ∧
        1 ≤ natOfDigits ys ∧ 1 ≤ natOfDigits ms ∧ natOfDigits ms ≤ 12 ∧
        1 ≤ natOfDigits ds ∧
        natOfDigits ds ≤ daysInMonth (natOfDigits ys) (natOfDigits ms) :=
  date_validation_amended.1 "2023-09-01"

/-- C10 witness: the liberal identifier parsing facts instantiated on the
empty store. -/
theorem id_parse_accepts_signs_and_underscores_witness :
    (pyInt "-5" = some (-5) ∧ pyInt "+42" = some 42 ∧ pyInt "1_000" = some 1000) ∧
    ((updateStudentEmail ⟨[], 1⟩ .noFault "-5" "x@y.z").connAttempted = true ∧
      (updateStudentEmail ⟨[], 1⟩ .noFault "-5" "x@y.z").sqlExecuted = true ∧
      (updateStudentEmail ⟨[], 1⟩ .noFault "-5" "x@y.z").report ≠ .invalidId) ∧
    ((deleteStudent ⟨[], 1⟩ .noFault "1_000").connAttempted = true ∧
      (deleteStudent ⟨[], 1⟩ .noFault "1_000").sqlExecuted = true ∧
      (deleteStudent ⟨[], 1⟩ .noFault "1_000").report ≠ .invalidId) ∧
    ((deleteStudent ⟨[], 1⟩ .noFault "+42").connAttempted = true ∧
      (deleteStudent ⟨[], 1⟩ .noFault "+42").report ≠ .invalidId) :=
  id_parse_accepts_signs_and_underscores ⟨[], 1⟩ "x@y.z"

end StudentsApp
